import Mathlib

/-!
# Verification of the bot-or-not repository's core logic

Shallow embedding of the repository's Python sources:

* `python/fine_tuning/metrics.py` — `ClassificationPoint`, `Metrics`,
  `compute_metrics`;
* `python/fine_tuning/openai_api.py` — `normalize_label` and the
  label-defaulting step of `classify_messages`;
* `python/fine_tuning/data.py` — `UserExample`, `build_user_prompt`,
  `load_examples`, `stratified_split`, `user_id_set`, `overlap_size`;
* `main.py` — `load_users_and_bots` and the run-checker's set-based scoring.

Python floats are modelled as exact rationals (`ℚ`); Python's builtin
`round` (round-half-to-even on these rationals) is `pythonRound`.  File
access is modelled by passing the decoded file contents (or `Option` maps
from dataset id to contents) as arguments.  The Mersenne-Twister shuffle of
`random.Random(seed).shuffle` is abstracted as an explicit `shuffle`
function argument; theorems about `stratified_split` quantify over every
`shuffle` that permutes its input, which covers the seeded PRNG shuffle.
-/

namespace BotOrNot

/-! ## metrics.py -/

/-- One observed outcome, from `metrics.py` (`ClassificationPoint`).
Labels are the raw strings the Python code compares against `"BOT"`. -/
structure ClassificationPoint where
  user_id : String
  dataset_id : Int
  truth_label : String
  predicted_label : String
deriving DecidableEq, Repr

/-- Aggregate metrics, from `metrics.py` (`Metrics`).  The float fields
`accuracy` and `pct_max` are modelled as exact rationals. -/
structure Metrics where
  total : Nat
  bots : Nat
  humans : Nat
  tp : Nat
  tn : Nat
  fp : Nat
  fn : Nat
  accuracy : ℚ
  score : Int
  max_score : Nat
  pct_max : ℚ
deriving DecidableEq, Repr

/-- The seven counters accumulated by the loop in `compute_metrics`. -/
structure Tally where
  total : Nat
  bots : Nat
  humans : Nat
  tp : Nat
  tn : Nat
  fp : Nat
  fn : Nat
deriving DecidableEq, Repr

attribute [ext] Tally

/-- One iteration of the accumulation loop of `compute_metrics`:
`is_bot = (truth_label == "BOT")`, `predicted_bot = (predicted_label == "BOT")`,
then the four-way branch incrementing the counters. -/
def tallyStep (t : Tally) (p : ClassificationPoint) : Tally :=
  let is_bot := p.truth_label = "BOT"
  let predicted_bot := p.predicted_label = "BOT"
  if is_bot then
    if predicted_bot then
      { t with total := t.total + 1, bots := t.bots + 1, tp := t.tp + 1 }
    else
      { t with total := t.total + 1, bots := t.bots + 1, fn := t.fn + 1 }
  else
    if predicted_bot then
      { t with total := t.total + 1, humans := t.humans + 1, fp := t.fp + 1 }
    else
      { t with total := t.total + 1, humans := t.humans + 1, tn := t.tn + 1 }

/-- `compute_metrics` from `metrics.py`: a single pass over the points
followed by the derived fields
`accuracy = 100*(tp+tn)/total if total else 0`,
`score = tp*4 - fp*2 - fn`, `max_score = bots*4`,
`pct_max = 100*score/max_score if max_score else 0`. -/
def compute_metrics (points : List ClassificationPoint) : Metrics :=
  let t := points.foldl tallyStep ⟨0, 0, 0, 0, 0, 0, 0⟩
  let score : Int := (t.tp : Int) * 4 - (t.fp : Int) * 2 - (t.fn : Int)
  let max_score := t.bots * 4
  { total := t.total
    bots := t.bots
    humans := t.humans
    tp := t.tp
    tn := t.tn
    fp := t.fp
    fn := t.fn
    accuracy := if t.total = 0 then 0 else 100 * ((t.tp : ℚ) + (t.tn : ℚ)) / (t.total : ℚ)
    score := score
    max_score := max_score
    pct_max := if max_score = 0 then 0 else 100 * (score : ℚ) / (max_score : ℚ) }

/-! Predicates for the four confusion-matrix cells, as Boolean tests on a
point, matching the comparisons in the loop. -/

def isTP (p : ClassificationPoint) : Bool :=
  decide (p.truth_label = "BOT") && decide (p.predicted_label = "BOT")

def isFN (p : ClassificationPoint) : Bool :=
  decide (p.truth_label = "BOT") && !decide (p.predicted_label = "BOT")

def isFP (p : ClassificationPoint) : Bool :=
  !decide (p.truth_label = "BOT") && decide (p.predicted_label = "BOT")

def isTN (p : ClassificationPoint) : Bool :=
  !decide (p.truth_label = "BOT") && !decide (p.predicted_label = "BOT")

def isBotPoint (p : ClassificationPoint) : Bool := decide (p.truth_label = "BOT")

def isHumanPoint (p : ClassificationPoint) : Bool := !decide (p.truth_label = "BOT")

/-- Each branch of the loop body adds 1 to `total` and to exactly one of the
`bots`/`humans` counters and one of the four cells. -/
theorem tallyStep_eq (t : Tally) (p : ClassificationPoint) :
    tallyStep t p =
      ⟨t.total + 1, t.bots + (if isBotPoint p then 1 else 0),
        t.humans + (if isHumanPoint p then 1 else 0),
        t.tp + (if isTP p then 1 else 0), t.tn + (if isTN p then 1 else 0),
        t.fp + (if isFP p then 1 else 0), t.fn + (if isFN p then 1 else 0)⟩ := by
  by_cases hb : p.truth_label = "BOT" <;> by_cases hp : p.predicted_label = "BOT" <;>
    simp [tallyStep, isTP, isTN, isFP, isFN, isBotPoint, isHumanPoint, hb, hp]

/-- The loop's counters, characterised: each field of the fold is the initial
value plus the count of points in the corresponding cell. -/
theorem foldl_tallyStep_char (points : List ClassificationPoint) :
    ∀ t : Tally,
      (points.foldl tallyStep t).total = t.total + points.length ∧
      (points.foldl tallyStep t).bots = t.bots + points.countP isBotPoint ∧
      (points.foldl tallyStep t).humans = t.humans + points.countP isHumanPoint ∧
      (points.foldl tallyStep t).tp = t.tp + points.countP isTP ∧
      (points.foldl tallyStep t).tn = t.tn + points.countP isTN ∧
      (points.foldl tallyStep t).fp = t.fp + points.countP isFP ∧
      (points.foldl tallyStep t).fn = t.fn + points.countP isFN := by
  induction points with
  | nil => intro t; simp
  | cons p ps ih =>
    intro t
    have h := ih (tallyStep t p)
    rw [tallyStep_eq] at h
    simp only [List.foldl_cons, List.length_cons, List.countP_cons, tallyStep_eq]
    simp only at h
    obtain ⟨h1, h2, h3, h4, h5, h6, h7⟩ := h
    refine ⟨?_, ?_, ?_, ?_, ?_, ?_, ?_⟩ <;> omega

/-- The tally underlying `compute_metrics`. -/
def metricsTally (points : List ClassificationPoint) : Tally :=
  points.foldl tallyStep ⟨0, 0, 0, 0, 0, 0, 0⟩

theorem metricsTally_total (points : List ClassificationPoint) :
    (metricsTally points).total = points.length := by
  have h := foldl_tallyStep_char points ⟨0, 0, 0, 0, 0, 0, 0⟩
  simpa [metricsTally] using h.1

theorem metricsTally_bots (points : List ClassificationPoint) :
    (metricsTally points).bots = points.countP isBotPoint := by
  have h := foldl_tallyStep_char points ⟨0, 0, 0, 0, 0, 0, 0⟩
  simpa [metricsTally] using h.2.1

theorem metricsTally_humans (points : List ClassificationPoint) :
    (metricsTally points).humans = points.countP isHumanPoint := by
  have h := foldl_tallyStep_char points ⟨0, 0, 0, 0, 0, 0, 0⟩
  simpa [metricsTally] using h.2.2.1

theorem metricsTally_tp (points : List ClassificationPoint) :
    (metricsTally points).tp = points.countP isTP := by
  have h := foldl_tallyStep_char points ⟨0, 0, 0, 0, 0, 0, 0⟩
  simpa [metricsTally] using h.2.2.2.1

theorem metricsTally_tn (points : List ClassificationPoint) :
    (metricsTally points).tn = points.countP isTN := by
  have h := foldl_tallyStep_char points ⟨0, 0, 0, 0, 0, 0, 0⟩
  simpa [metricsTally] using h.2.2.2.2.1

theorem metricsTally_fp (points : List ClassificationPoint) :
    (metricsTally points).fp = points.countP isFP := by
  have h := foldl_tallyStep_char points ⟨0, 0, 0, 0, 0, 0, 0⟩
  simpa [metricsTally] using h.2.2.2.2.2.1

theorem metricsTally_fn (points : List ClassificationPoint) :
    (metricsTally points).fn = points.countP isFN := by
  have h := foldl_tallyStep_char points ⟨0, 0, 0, 0, 0, 0, 0⟩
  simpa [metricsTally] using h.2.2.2.2.2.2

theorem compute_metrics_eq (points : List ClassificationPoint) :
    compute_metrics points =
      { total := (metricsTally points).total
        bots := (metricsTally points).bots
        humans := (metricsTally points).humans
        tp := (metricsTally points).tp
        tn := (metricsTally points).tn
        fp := (metricsTally points).fp
        fn := (metricsTally points).fn
        accuracy := if (metricsTally points).total = 0 then 0 else
          100 * (((metricsTally points).tp : ℚ) + ((metricsTally points).tn : ℚ)) /
            ((metricsTally points).total : ℚ)
        score := ((metricsTally points).tp : Int) * 4 - ((metricsTally points).fp : Int) * 2 -
          ((metricsTally points).fn : Int)
        max_score := (metricsTally points).bots * 4
        pct_max := if (metricsTally points).bots * 4 = 0 then 0 else
          100 * ((((metricsTally points).tp : Int) * 4 - ((metricsTally points).fp : Int) * 2 -
            ((metricsTally points).fn : Int) : Int) : ℚ) / (((metricsTally points).bots * 4 : Nat) : ℚ) } :=
  rfl

/-- C1: `compute_metrics` counts each confusion cell by comparing
`truth_label` and `predicted_label` to `"BOT"` per point, and derives
`accuracy = 100*(tp+tn)/total` (0 when `total = 0`),
`score = 4*tp - 2*fp - 1*fn`, `max_score = 4*bots`, and
`pct_max = 100*score/max_score` (0 when `max_score = 0`). -/
theorem compute_metrics_spec (points : List ClassificationPoint) :
    (compute_metrics points).total = points.length ∧
    (compute_metrics points).bots = points.countP isBotPoint ∧
    (compute_metrics points).humans = points.countP isHumanPoint ∧
    (compute_metrics points).tp = points.countP isTP ∧
    (compute_metrics points).fn = points.countP isFN ∧
    (compute_metrics points).fp = points.countP isFP ∧
    (compute_metrics points).tn = points.countP isTN ∧
    (compute_metrics points).accuracy =
      (if (compute_metrics points).total = 0 then 0 else
        100 * (((compute_metrics points).tp : ℚ) + ((compute_metrics points).tn : ℚ)) /
          ((compute_metrics points).total : ℚ)) ∧
    (compute_metrics points).score =
      4 * ((compute_metrics points).tp : Int) - 2 * ((compute_metrics points).fp : Int) -
        1 * ((compute_metrics points).fn : Int) ∧
    (compute_metrics points).max_score = 4 * (compute_metrics points).bots ∧
    (compute_metrics points).pct_max =
      (if (compute_metrics points).max_score = 0 then 0 else
        100 * ((compute_metrics points).score : ℚ) / ((compute_metrics points).max_score : ℚ)) := by
  rw [compute_metrics_eq]
  refine ⟨metricsTally_total points, metricsTally_bots points, metricsTally_humans points,
    metricsTally_tp points, metricsTally_fn points, metricsTally_fp points,
    metricsTally_tn points, rfl, by ring, by ring, by push_cast; ring_nf⟩

/-- C9: `compute_metrics` is order-independent — permuting the input points
yields identical output. -/
theorem compute_metrics_perm_invariant (points points' : List ClassificationPoint)
    (h : points.Perm points') : compute_metrics points = compute_metrics points' := by
  have htally : metricsTally points = metricsTally points' := by
    ext
    · rw [metricsTally_total, metricsTally_total, h.length_eq]
    · rw [metricsTally_bots, metricsTally_bots, h.countP_eq]
    · rw [metricsTally_humans, metricsTally_humans, h.countP_eq]
    · rw [metricsTally_tp, metricsTally_tp, h.countP_eq]
    · rw [metricsTally_tn, metricsTally_tn, h.countP_eq]
    · rw [metricsTally_fp, metricsTally_fp, h.countP_eq]
    · rw [metricsTally_fn, metricsTally_fn, h.countP_eq]
  rw [compute_metrics_eq, compute_metrics_eq, htally]

/-- Witness for C9 at a concrete permutation: swapping two concrete points
leaves the metrics unchanged. -/
theorem compute_metrics_perm_invariant_witness :
    compute_metrics
        [⟨"u1", 30, "BOT", "BOT"⟩, ⟨"u2", 30, "HUMAN", "BOT"⟩] =
      compute_metrics
        [⟨"u2", 30, "HUMAN", "BOT"⟩, ⟨"u1", 30, "BOT", "BOT"⟩] :=
  compute_metrics_perm_invariant _ _ (List.Perm.swap _ _ _)

/-! ## openai_api.py -/

/-- Python `str.strip()` on a character list: leading and trailing
whitespace removed. -/
def trimChars (l : List Char) : List Char :=
  ((l.dropWhile Char.isWhitespace).reverse.dropWhile Char.isWhitespace).reverse

/-- Python's `sub in s` substring test on character lists. -/
def hasSub (pat : List Char) : List Char → Bool
  | [] => pat.isEmpty
  | c :: rest => pat.isPrefixOf (c :: rest) || hasSub pat rest

/-- `raw_text.strip().upper()` from `normalize_label` (ASCII upper-casing,
which is all the two keywords need). -/
def canonText (raw : String) : List Char :=
  (trimChars raw.data).map Char.toUpper

/-- `normalize_label` from `openai_api.py`: after stripping and upper-casing,
empty text is invalid (`none`); a `"BOT"`/`"HUMAN"` prefix wins; otherwise the
text must contain exactly one of the two keywords as a substring; anything
else is invalid. -/
def normalize_label (raw_text : String) : Option String :=
  let text := canonText raw_text
  if text.isEmpty then none
  else if ("BOT".data).isPrefixOf text then some "BOT"
  else if ("HUMAN".data).isPrefixOf text then some "HUMAN"
  else
    let has_bot := hasSub "BOT".data text
    let has_human := hasSub "HUMAN".data text
    if has_bot && !has_human then some "BOT"
    else if has_human && !has_bot then some "HUMAN"
    else none

/-- The label-assignment step of `classify_messages`:
`normalized = normalize_label(raw) or "HUMAN"`. -/
def classify_prediction (raw_text : String) : String :=
  (normalize_label raw_text).getD "HUMAN"

/-- C3: the normalization procedure — case-insensitive prefix match first,
then the exactly-one-substring fallback, everything else invalid, invalid
predictions defaulting to `HUMAN` — together with the spec's concrete
examples. -/
theorem normalize_label_spec :
    (∀ raw : String, ("BOT".data).isPrefixOf (canonText raw) = true →
      normalize_label raw = some "BOT") ∧
    (∀ raw : String, ("BOT".data).isPrefixOf (canonText raw) = false →
      ("HUMAN".data).isPrefixOf (canonText raw) = true →
      normalize_label raw = some "HUMAN") ∧
    (∀ raw : String, ("BOT".data).isPrefixOf (canonText raw) = false →
      ("HUMAN".data).isPrefixOf (canonText raw) = false →
      hasSub "BOT".data (canonText raw) = true →
      hasSub "HUMAN".data (canonText raw) = false →
      normalize_label raw = some "BOT") ∧
    (∀ raw : String, ("BOT".data).isPrefixOf (canonText raw) = false →
      ("HUMAN".data).isPrefixOf (canonText raw) = false →
      hasSub "HUMAN".data (canonText raw) = true →
      hasSub "BOT".data (canonText raw) = false →
      normalize_label raw = some "HUMAN") ∧
    (∀ raw : String, ("BOT".data).isPrefixOf (canonText raw) = false →
      ("HUMAN".data).isPrefixOf (canonText raw) = false →
      hasSub "BOT".data (canonText raw) = hasSub "HUMAN".data (canonText raw) →
      normalize_label raw = none) ∧
    (∀ raw : String, normalize_label raw = none → classify_prediction raw = "HUMAN") ∧
    normalize_label "BOT" = some "BOT" ∧
    normalize_label "bot." = some "BOT" ∧
    normalize_label "I think this is a HUMAN." = some "HUMAN" ∧
    normalize_label "maybe bot or human" = none ∧
    classify_prediction "maybe bot or human" = "HUMAN" ∧
    normalize_label "" = none := by
  refine ⟨?_, ?_, ?_, ?_, ?_, ?_, ?_, ?_, ?_, ?_, ?_, ?_⟩
  · intro raw hB
    have hne : (canonText raw).isEmpty = false := by
      cases h : canonText raw with
      | nil => rw [h] at hB; simp [List.isPrefixOf] at hB
      | cons c rest => simp [List.isEmpty]
    simp [normalize_label, hne, hB]
  · intro raw hB hH
    have hne : (canonText raw).isEmpty = false := by
      cases h : canonText raw with
      | nil => rw [h] at hH; simp [List.isPrefixOf] at hH
      | cons c rest => simp [List.isEmpty]
    simp [normalize_label, hne, hB, hH]
  · intro raw hB hH hb hh
    have hne : (canonText raw).isEmpty = false := by
      cases h : canonText raw with
      | nil => rw [h] at hb; simp [hasSub] at hb
      | cons c rest => simp [List.isEmpty]
    simp [normalize_label, hne, hB, hH, hb, hh]
  · intro raw hB hH hh hb
    have hne : (canonText raw).isEmpty = false := by
      cases h : canonText raw with
      | nil => rw [h] at hh; simp [hasSub] at hh
      | cons c rest => simp [List.isEmpty]
    simp [normalize_label, hne, hB, hH, hb, hh]
  · intro raw hB hH hiff
    by_cases hne : (canonText raw).isEmpty = true
    · simp [normalize_label, hne]
    · simp only [Bool.not_eq_true] at hne
      cases hb : hasSub "BOT".data (canonText raw) <;>
        simp [normalize_label, hne, hB, hH, hb, hiff ▸ hb, ← hiff]
  · intro raw h
    simp [classify_prediction, h]
  · decide
  · decide
  · decide
  · decide
  · decide
  · decide

/-! ## data.py: the data model and the stratified splitter -/

/-- One labeled account, from `data.py` (`UserExample`).  `label` is the raw
string (`"BOT"` or `"HUMAN"` as produced by `load_examples`). -/
structure UserExample where
  user_id : String
  dataset_id : Int
  lang : String
  label : String
  full_post_count : Nat
  post_count_used : Nat
  user_prompt : String
deriving DecidableEq, Repr

/-- Python's builtin `round` (round half to even) on the exact rational
modelling the float `bucket_size * val_fraction`. -/
def pythonRound (q : ℚ) : ℤ :=
  let n := ⌊q⌋
  let r := q - (n : ℚ)
  if r < 1 / 2 then n
  else if 1 / 2 < r then n + 1
  else if n % 2 = 0 then n else n + 1

/-- The per-bucket validation count of `stratified_split`:
`0` for buckets of size ≤ 1, otherwise
`min(max(1, round(len(bucket) * val_fraction)), len(bucket) - 1)`. -/
def nVal (k : Nat) (val_fraction : ℚ) : Nat :=
  if k ≤ 1 then 0
  else min (max 1 (pythonRound ((k : ℚ) * val_fraction))).toNat (k - 1)

/-- The `(label, lang)` bucket key used by `stratified_split`. -/
def bucketKey (e : UserExample) : String × String := (e.label, e.lang)

/-- Lexicographic order on bucket keys, as `sorted(by_bucket)` orders the
`(label, lang)` tuples. -/
def keyLe (a b : String × String) : Prop := a.1 < b.1 ∨ (a.1 = b.1 ∧ a.2 ≤ b.2)

instance : DecidableRel keyLe := fun a b =>
  inferInstanceAs (Decidable (a.1 < b.1 ∨ (a.1 = b.1 ∧ a.2 ≤ b.2)))

/-- Sorting examples by `user_id`, as `sorted(..., key=lambda ex: ex.user_id)`. -/
def idLe (a b : UserExample) : Prop := a.user_id ≤ b.user_id

instance : DecidableRel idLe := fun a b =>
  inferInstanceAs (Decidable (a.user_id ≤ b.user_id))

/-- The sorted list of distinct `(label, lang)` bucket keys
(`for bucket_key in sorted(by_bucket)`). -/
def splitKeys (examples : List UserExample) : List (String × String) :=
  ((examples.map bucketKey).dedup).insertionSort keyLe

/-- One bucket's contribution: the bucket is the examples with the given
key, sorted by `user_id` then shuffled; the pair is
`(bucket[n_val:], bucket[:n_val])` — the train part and the val part. -/
def splitPart (shuffle : List UserExample → List UserExample)
    (examples : List UserExample) (val_fraction : ℚ) (k : String × String) :
    List UserExample × List UserExample :=
  let bucket := (examples.filter (fun e => decide (bucketKey e = k))).insertionSort idLe
  let shuffled := shuffle bucket
  let n := nVal shuffled.length val_fraction
  (shuffled.drop n, shuffled.take n)

/-- All buckets' contributions, in bucket-key order. -/
def splitParts (shuffle : List UserExample → List UserExample)
    (examples : List UserExample) (val_fraction : ℚ) :
    List (List UserExample × List UserExample) :=
  (splitKeys examples).map (splitPart shuffle examples val_fraction)

/-- `stratified_split` from `data.py`.  The in-place `rng.shuffle` of the
seeded `random.Random` is abstracted as the `shuffle` argument; the guard,
the `(label, lang)` bucketing, the per-bucket sort-then-shuffle, the
clamped validation count, the `bucket[:n_val]`/`bucket[n_val:]` split and
the final re-sorts follow the source. -/
def stratified_split (shuffle : List UserExample → List UserExample)
    (examples : List UserExample) (val_fraction : ℚ) :
    Except String (List UserExample × List UserExample) :=
  if 0 < val_fraction ∧ val_fraction < 1 then
    .ok (((splitParts shuffle examples val_fraction).flatMap Prod.fst).insertionSort idLe,
      ((splitParts shuffle examples val_fraction).flatMap Prod.snd).insertionSort idLe)
  else .error "val_fraction must be between 0 and 1"

/-- `user_id_set` from `data.py`. -/
def user_id_set (examples : List UserExample) : Finset String :=
  (examples.map UserExample.user_id).toFinset

/-- `overlap_size` from `data.py`. -/
def overlap_size (a b : List UserExample) : Nat :=
  (user_id_set a ∩ user_id_set b).card

/-! Generic list lemmas for the splitter proofs. -/

/-- Concatenating, over a duplicate-free and complete list of keys, the
sublists of `l` with each key recovers a permutation of `l`. -/
theorem flatMap_filter_key_perm {α β : Type} [DecidableEq β] (f : α → β) :
    ∀ (ks : List β) (l : List α), ks.Nodup → (∀ a ∈ l, f a ∈ ks) →
      (ks.flatMap (fun k => l.filter (fun a => decide (f a = k)))).Perm l := by
  intro ks
  induction ks with
  | nil =>
    intro l _ hcov
    have : l = [] := List.eq_nil_iff_forall_not_mem.mpr (fun a ha => by simpa using hcov a ha)
    simp [this]
  | cons k ks ih =>
    intro l hnd hcov
    rw [List.flatMap_cons]
    have hrest : ks.flatMap (fun k' => l.filter (fun a => decide (f a = k'))) =
        ks.flatMap (fun k' =>
          (l.filter (fun a => !decide (f a = k))).filter (fun a => decide (f a = k'))) := by
      rw [List.flatMap_def, List.flatMap_def]
      congr 1
      refine List.map_congr_left (fun k' hk' => ?_)
      rw [List.filter_filter]
      refine (List.filter_congr (fun a _ => ?_)).symm
      by_cases hfa : f a = k'
      · have hkk : k' ≠ k := fun h => (List.nodup_cons.mp hnd).1 (h ▸ hk')
        simp [hfa, hkk]
      · simp [hfa]
    have hcov' : ∀ a ∈ l.filter (fun a => !decide (f a = k)), f a ∈ ks := by
      intro a ha
      rcases List.mem_filter.mp ha with ⟨hal, hak⟩
      have := hcov a hal
      simp only [List.mem_cons] at this
      rcases this with h | h
      · simp [h] at hak
      · exact h
    have hperm := ih (l.filter (fun a => !decide (f a = k))) (List.nodup_cons.mp hnd).2 hcov'
    rw [hrest]
    exact ((List.Perm.append_left _ hperm).trans (List.filter_append_perm _ l))

/-- `flatMap` of an append of functions is a permutation of the append of the
`flatMap`s. -/
theorem flatMap_append_perm {α β : Type} (f g : α → List β) :
    ∀ l : List α, ((l.flatMap f) ++ (l.flatMap g)).Perm (l.flatMap (fun x => f x ++ g x)) := by
  intro l
  induction l with
  | nil => simp
  | cons a l ih =>
    simp only [List.flatMap_cons]
    rw [List.append_assoc, List.append_assoc]
    refine List.Perm.append_left _ ?_
    exact (List.perm_append_comm_assoc _ _ _).trans (List.Perm.append_left _ ih)

/-- Pointwise permutations lift to `flatMap`. -/
theorem flatMap_perm_of_forall {α β : Type} {f g : α → List β} :
    ∀ l : List α, (∀ a ∈ l, (f a).Perm (g a)) → (l.flatMap f).Perm (l.flatMap g) := by
  intro l
  induction l with
  | nil => intro _; simp
  | cons a l ih =>
    intro h
    simp only [List.flatMap_cons]
    exact (h a (by simp)).append (ih (fun b hb => h b (by simp [hb])))

/-- Summing a per-key quantity that vanishes away from `b` over a
duplicate-free key list containing `b` yields the value at `b`. -/
theorem sum_map_single {β : Type} [DecidableEq β] (g : β → Nat) :
    ∀ (ks : List β) (b : β), ks.Nodup → b ∈ ks → (∀ k ∈ ks, k ≠ b → g k = 0) →
      (ks.map g).sum = g b := by
  intro ks
  induction ks with
  | nil => intro b _ hb _; simp at hb
  | cons k ks ih =>
    intro b hnd hb h0
    simp only [List.map_cons, List.sum_cons]
    rcases List.mem_cons.mp hb with rfl | hb'
    · have hz : (ks.map g).sum = 0 := List.sum_eq_zero (by
        intro x hx
        rcases List.mem_map.mp hx with ⟨k', hk', rfl⟩
        exact h0 k' (by simp [hk']) (fun h => (List.nodup_cons.mp hnd).1 (h ▸ hk')))
      simp [hz]
    · have hkb : k ≠ b := fun h => (List.nodup_cons.mp hnd).1 (h ▸ hb')
      rw [h0 k (by simp) hkb,
        ih b (List.nodup_cons.mp hnd).2 hb' (fun k' hk' hkb' => h0 k' (by simp [hk']) hkb')]
      simp

/-! Facts about `nVal`. -/

theorem nVal_le (k : Nat) (f : ℚ) : nVal k f ≤ k := by
  unfold nVal; split <;> omega

theorem nVal_bounds (k : Nat) (f : ℚ) (hk : 2 ≤ k) : 1 ≤ nVal k f ∧ nVal k f ≤ k - 1 := by
  unfold nVal
  have h1 : ¬ k ≤ 1 := by omega
  simp only [h1, if_false]
  omega

theorem nVal_of_le_one (k : Nat) (f : ℚ) (hk : k ≤ 1) : nVal k f = 0 := by
  unfold nVal; simp [hk]

/-! The splitter's structural facts. -/

theorem splitKeys_nodup (examples : List UserExample) : (splitKeys examples).Nodup :=
  (List.perm_insertionSort keyLe _).symm.nodup (List.nodup_dedup _)

theorem mem_splitKeys {examples : List UserExample} {k : String × String} :
    k ∈ splitKeys examples ↔ k ∈ examples.map bucketKey := by
  rw [splitKeys, List.mem_insertionSort, List.mem_dedup]

theorem splitKeys_covers (examples : List UserExample) :
    ∀ e ∈ examples, bucketKey e ∈ splitKeys examples := by
  intro e he
  exact mem_splitKeys.mpr (List.mem_map.mpr ⟨e, he, rfl⟩)

/-- Both halves of one bucket's contribution, concatenated, are a
permutation of that bucket's examples. -/
theorem splitPart_perm (shuffle : List UserExample → List UserExample)
    (examples : List UserExample) (val_fraction : ℚ) (k : String × String)
    (hsh : ∀ l, (shuffle l).Perm l) :
    ((splitPart shuffle examples val_fraction k).1 ++
        (splitPart shuffle examples val_fraction k).2).Perm
      (examples.filter (fun e => decide (bucketKey e = k))) := by
  unfold splitPart
  refine (List.perm_append_comm.trans ?_)
  rw [List.take_append_drop]
  exact (hsh _).trans (List.perm_insertionSort idLe _)

/-- The concatenation of all train parts and all val parts is a permutation
of the input examples. -/
theorem splitParts_perm (shuffle : List UserExample → List UserExample)
    (examples : List UserExample) (val_fraction : ℚ)
    (hsh : ∀ l, (shuffle l).Perm l) :
    (((splitParts shuffle examples val_fraction).flatMap Prod.fst) ++
        ((splitParts shuffle examples val_fraction).flatMap Prod.snd)).Perm examples := by
  unfold splitParts
  rw [List.flatMap_map, List.flatMap_map]
  refine ((flatMap_append_perm _ _ _).trans ?_)
  refine (flatMap_perm_of_forall _ (fun k _ =>
    splitPart_perm shuffle examples val_fraction k hsh)).trans ?_
  exact flatMap_filter_key_perm bucketKey (splitKeys examples) examples
    (splitKeys_nodup examples) (splitKeys_covers examples)

/-- Unpacking a successful `stratified_split`. -/
theorem stratified_split_ok_iff {shuffle : List UserExample → List UserExample}
    {examples : List UserExample} {val_fraction : ℚ} {tr va : List UserExample} :
    stratified_split shuffle examples val_fraction = .ok (tr, va) ↔
      (0 < val_fraction ∧ val_fraction < 1) ∧
      tr = ((splitParts shuffle examples val_fraction).flatMap Prod.fst).insertionSort idLe ∧
      va = ((splitParts shuffle examples val_fraction).flatMap Prod.snd).insertionSort idLe := by
  unfold stratified_split
  split
  · rename_i h
    simp only [Except.ok.injEq, Prod.mk.injEq]
    constructor
    · rintro ⟨h1, h2⟩; exact ⟨h, h1.symm, h2.symm⟩
    · rintro ⟨_, h1, h2⟩; exact ⟨h1.symm, h2.symm⟩
  · rename_i h
    simp only [reduceCtorEq, false_iff]
    rintro ⟨hc, _⟩; exact h hc

/-- Train and val of a successful `stratified_split` are, together, a
permutation (multiset equality) of the input. -/
theorem stratified_split_union_perm (shuffle : List UserExample → List UserExample)
    (examples : List UserExample) (val_fraction : ℚ) (tr va : List UserExample)
    (hsh : ∀ l, (shuffle l).Perm l)
    (heq : stratified_split shuffle examples val_fraction = .ok (tr, va)) :
    (tr ++ va).Perm examples := by
  obtain ⟨-, htr, hva⟩ := stratified_split_ok_iff.mp heq
  subst htr hva
  exact (List.Perm.append (List.perm_insertionSort idLe _)
    (List.perm_insertionSort idLe _)).trans (splitParts_perm shuffle examples val_fraction hsh)

/-- C2 (amended): when the input's `user_id`s are pairwise distinct, a
successful `stratified_split` (under any permutation-valued shuffle) returns
train/val with disjoint `user_id` sets whose concatenation is a permutation
— i.e. multiset-equal — of the input.  (Without the distinctness hypothesis
the multiset half still holds but id-set disjointness can fail, see the
counterexample.) -/
theorem stratified_split_disjoint_union (shuffle : List UserExample → List UserExample)
    (examples : List UserExample) (val_fraction : ℚ) (tr va : List UserExample)
    (hsh : ∀ l, (shuffle l).Perm l)
    (hnd : (examples.map UserExample.user_id).Nodup)
    (heq : stratified_split shuffle examples val_fraction = .ok (tr, va)) :
    Disjoint (user_id_set tr) (user_id_set va) ∧ (tr ++ va).Perm examples := by
  have hperm := stratified_split_union_perm shuffle examples val_fraction tr va hsh heq
  refine ⟨?_, hperm⟩
  have hmap : ((tr ++ va).map UserExample.user_id).Perm (examples.map UserExample.user_id) :=
    hperm.map UserExample.user_id
  have hnd' : ((tr ++ va).map UserExample.user_id).Nodup := hmap.symm.nodup hnd
  rw [List.map_append, List.nodup_append] at hnd'
  exact List.disjoint_toFinset_iff_disjoint.mpr hnd'.2.2

/-- A duplicated example used by the counterexample to C2 as stated. -/
def dupExample : UserExample :=
  { user_id := "u1", dataset_id := 30, lang := "en", label := "BOT",
    full_post_count := 0, post_count_used := 0, user_prompt := "p" }

theorem pythonRound_one : pythonRound 1 = 1 := by
  unfold pythonRound
  norm_num

theorem nVal_two_half : nVal 2 ((2 : ℚ)⁻¹) = 1 := by
  unfold nVal
  norm_num [show ((2 : ℕ) : ℚ) * (2 : ℚ)⁻¹ = 1 by norm_num, pythonRound_one]

/-- Evaluating the split on the duplicated two-element input. -/
theorem split_eval_dup :
    stratified_split (fun l => l) [dupExample, dupExample] (1 / 2) =
      .ok ([dupExample], [dupExample]) := by
  have hf : (0 : ℚ) < 1 / 2 ∧ (1 / 2 : ℚ) < 1 := by norm_num
  unfold stratified_split
  rw [if_pos hf]
  simp [splitParts, splitKeys, splitPart, bucketKey, dupExample, idLe,
    List.insertionSort, List.orderedInsert, nVal_two_half]

/-- Counterexample to C2 as stated: on an input containing the same example
twice (same `user_id`), `stratified_split` puts one copy in train and one in
val — their `user_id` sets are not disjoint (`overlap_size` is 1), even
though the union is still the input multiset.  (On this input every
permutation-valued shuffle fixes the bucket `[dupExample, dupExample]`, so
the identity stands in for the seeded PRNG shuffle.) -/
theorem stratified_split_disjoint_cex :
    stratified_split (fun l => l) [dupExample, dupExample] (1 / 2) =
      .ok ([dupExample], [dupExample]) ∧
    ¬ Disjoint (user_id_set [dupExample]) (user_id_set [dupExample]) ∧
    overlap_size [dupExample] [dupExample] = 1 := by
  refine ⟨split_eval_dup, ?_, ?_⟩
  · exact Finset.not_disjoint_iff.mpr ⟨"u1", by simp [user_id_set, dupExample],
      by simp [user_id_set, dupExample]⟩
  · decide

/-- A single example, for the split witnesses. -/
def exA : UserExample :=
  { user_id := "a", dataset_id := 30, lang := "en", label := "HUMAN",
    full_post_count := 0, post_count_used := 0, user_prompt := "p" }

/-- Evaluating the split on the single-example input: one bucket of size 1,
so validation is empty. -/
theorem split_eval_single :
    stratified_split (fun l => l) [exA] (1 / 2) = .ok ([exA], []) := by
  have hf : (0 : ℚ) < 1 / 2 ∧ (1 / 2 : ℚ) < 1 := by norm_num
  unfold stratified_split
  rw [if_pos hf]
  simp [splitParts, splitKeys, splitPart, bucketKey, exA, idLe,
    List.insertionSort, List.orderedInsert, nVal]

/-- Witness for the amended C2 at a concrete split: `[exA]` with
`val_fraction = 1/2` splits into train `[exA]`, val `[]`. -/
theorem stratified_split_disjoint_union_witness :
    Disjoint (user_id_set [exA]) (user_id_set []) ∧
      ([exA] ++ []).Perm [exA] :=
  stratified_split_disjoint_union (fun l => l) [exA] (1 / 2) [exA] []
    (fun l => List.Perm.refl l) (by decide) split_eval_single

/-- Within its own bucket, the val part contributes exactly the clamped
validation count. -/
theorem splitPart_val_countP_self (shuffle : List UserExample → List UserExample)
    (examples : List UserExample) (val_fraction : ℚ) (k : String × String)
    (hsh : ∀ l, (shuffle l).Perm l) :
    ((splitPart shuffle examples val_fraction k).2).countP
        (fun e => decide (bucketKey e = k)) =
      nVal (examples.filter (fun e => decide (bucketKey e = k))).length val_fraction := by
  unfold splitPart
  set bucket := (examples.filter (fun e => decide (bucketKey e = k))).insertionSort idLe with hb
  have hlen : (shuffle bucket).length =
      (examples.filter (fun e => decide (bucketKey e = k))).length := by
    rw [(hsh bucket).length_eq, hb, List.length_insertionSort]
  have hall : ∀ e ∈ (shuffle bucket).take (nVal (shuffle bucket).length val_fraction),
      bucketKey e = k := by
    intro e he
    have h1 : e ∈ shuffle bucket := (List.take_sublist _ _).subset he
    have h2 : e ∈ bucket := (hsh bucket).subset h1
    rw [hb, List.mem_insertionSort] at h2
    exact of_decide_eq_true (List.mem_filter.mp h2).2
  rw [List.countP_eq_length.mpr (fun a ha => decide_eq_true (hall a ha)),
    List.length_take, hlen]
  exact Nat.min_eq_left (nVal_le _ _)

/-- Other buckets contribute nothing to a val bucket count. -/
theorem splitPart_val_countP_other (shuffle : List UserExample → List UserExample)
    (examples : List UserExample) (val_fraction : ℚ) (k bk : String × String)
    (hsh : ∀ l, (shuffle l).Perm l) (hne : k ≠ bk) :
    ((splitPart shuffle examples val_fraction k).2).countP
        (fun e => decide (bucketKey e = bk)) = 0 := by
  unfold splitPart
  rw [List.countP_eq_zero]
  intro e he
  have h1 : e ∈ shuffle ((examples.filter (fun x => decide (bucketKey x = k))).insertionSort idLe) :=
    (List.take_sublist _ _).subset he
  have h2 := (hsh _).subset h1
  rw [List.mem_insertionSort] at h2
  have h3 : bucketKey e = k := of_decide_eq_true (List.mem_filter.mp h2).2
  simp [h3, hne]

/-- The whole val list's count for one bucket key equals that bucket's
clamped validation count. -/
theorem splitParts_val_countP (shuffle : List UserExample → List UserExample)
    (examples : List UserExample) (val_fraction : ℚ) (bk : String × String)
    (hsh : ∀ l, (shuffle l).Perm l) :
    ((splitParts shuffle examples val_fraction).flatMap Prod.snd).countP
        (fun e => decide (bucketKey e = bk)) =
      nVal (examples.filter (fun e => decide (bucketKey e = bk))).length val_fraction := by
  unfold splitParts
  rw [List.flatMap_map, List.countP_flatMap]
  simp only [Function.comp_def]
  by_cases hbk : bk ∈ splitKeys examples
  · rw [sum_map_single _ (splitKeys examples) bk (splitKeys_nodup examples) hbk
      (fun k hk hkb => splitPart_val_countP_other shuffle examples val_fraction k bk hsh hkb)]
    exact splitPart_val_countP_self shuffle examples val_fraction bk hsh
  · have hemp : examples.filter (fun e => decide (bucketKey e = bk)) = [] := by
      rw [List.filter_eq_nil_iff]
      intro e he hdec
      exact hbk (of_decide_eq_true hdec ▸ splitKeys_covers examples e he)
    rw [hemp]
    rw [List.sum_eq_zero ?_, nVal_of_le_one _ _ (by simp)]
    intro x hx
    rcases List.mem_map.mp hx with ⟨k, hk, rfl⟩
    exact splitPart_val_countP_other shuffle examples val_fraction k bk hsh
      (fun h => hbk (h ▸ hk))

/-- C6: for every valid call and every `(label, lang)` bucket of size `k`,
the validation count `v` of that bucket equals `nVal k val_fraction`
(`round(k*val_fraction)` floored to 1 and capped at `k-1`); in particular
`1 ≤ v ≤ k-1` when `k ≥ 2` and `v = 0` when `k ≤ 1`. -/
theorem stratified_split_bucket_val_count (shuffle : List UserExample → List UserExample)
    (examples : List UserExample) (val_fraction : ℚ) (tr va : List UserExample)
    (bk : String × String)
    (hsh : ∀ l, (shuffle l).Perm l)
    (heq : stratified_split shuffle examples val_fraction = .ok (tr, va)) :
    (va.filter (fun e => decide (bucketKey e = bk))).length =
      nVal (examples.filter (fun e => decide (bucketKey e = bk))).length val_fraction ∧
    (2 ≤ (examples.filter (fun e => decide (bucketKey e = bk))).length →
      1 ≤ (va.filter (fun e => decide (bucketKey e = bk))).length ∧
      (va.filter (fun e => decide (bucketKey e = bk))).length ≤
        (examples.filter (fun e => decide (bucketKey e = bk))).length - 1) ∧
    ((examples.filter (fun e => decide (bucketKey e = bk))).length ≤ 1 →
      (va.filter (fun e => decide (bucketKey e = bk))).length = 0) := by
  obtain ⟨-, -, hva⟩ := stratified_split_ok_iff.mp heq
  have hcount : (va.filter (fun e => decide (bucketKey e = bk))).length =
      nVal (examples.filter (fun e => decide (bucketKey e = bk))).length val_fraction := by
    rw [← List.countP_eq_length_filter, hva,
      (List.perm_insertionSort idLe _).countP_eq,
      splitParts_val_countP shuffle examples val_fraction bk hsh]
  refine ⟨hcount, fun hk => ?_, fun hk => ?_⟩
  · rw [hcount]; exact nVal_bounds _ _ hk
  · rw [hcount]; exact nVal_of_le_one _ _ hk

/-- Witness for C6 at the concrete single-example split: the
`("HUMAN", "en")` bucket has size 1, so its validation count is 0. -/
theorem stratified_split_bucket_val_count_witness :
    (([] : List UserExample).filter (fun e => decide (bucketKey e = ("HUMAN", "en")))).length =
      nVal ([exA].filter (fun e => decide (bucketKey e = ("HUMAN", "en")))).length (1 / 2) ∧
    (2 ≤ ([exA].filter (fun e => decide (bucketKey e = ("HUMAN", "en")))).length →
      1 ≤ (([] : List UserExample).filter
          (fun e => decide (bucketKey e = ("HUMAN", "en")))).length ∧
      (([] : List UserExample).filter
          (fun e => decide (bucketKey e = ("HUMAN", "en")))).length ≤
        ([exA].filter (fun e => decide (bucketKey e = ("HUMAN", "en")))).length - 1) ∧
    (([exA].filter (fun e => decide (bucketKey e = ("HUMAN", "en")))).length ≤ 1 →
      (([] : List UserExample).filter
          (fun e => decide (bucketKey e = ("HUMAN", "en")))).length = 0) :=
  stratified_split_bucket_val_count (fun l => l) [exA] (1 / 2) [exA] [] ("HUMAN", "en")
    (fun l => List.Perm.refl l) split_eval_single

/-! ## main.py: the run-checker's set-based scoring

The ground truth built by `load_users_and_bots` is a Python dict
`{user_id: is_bot}`; it is modelled as an association list whose keys are
duplicate-free (`(truth.map Prod.fst).Nodup` hypotheses).  `predicted_bots`
is a Python set, modelled as a `Finset String`. -/

/-- `set(truth.keys())`. -/
def truthKeys (truth : List (String × Bool)) : Finset String :=
  (truth.map Prod.fst).toFinset

/-- `actual_bots = {uid for uid, is_bot in truth.items() if is_bot}`. -/
def actual_bots (truth : List (String × Bool)) : Finset String :=
  ((truth.filter (fun kv => kv.2)).map Prod.fst).toFinset

/-- `actual_humans = set(truth.keys()) - actual_bots`. -/
def actual_humans (truth : List (String × Bool)) : Finset String :=
  truthKeys truth \ actual_bots truth

/-- `tp = len(sorted(predicted_bots & actual_bots))`. -/
def checker_tp (truth : List (String × Bool)) (predicted : Finset String) : Nat :=
  (predicted ∩ actual_bots truth).card

/-- `fp = len(sorted(predicted_bots & actual_humans))`. -/
def checker_fp (truth : List (String × Bool)) (predicted : Finset String) : Nat :=
  (predicted ∩ actual_humans truth).card

/-- `fn = len(sorted(actual_bots - predicted_bots))`. -/
def checker_fn (truth : List (String × Bool)) (predicted : Finset String) : Nat :=
  (actual_bots truth \ predicted).card

/-- `tn = len(sorted(actual_humans - predicted_bots))`. -/
def checker_tn (truth : List (String × Bool)) (predicted : Finset String) : Nat :=
  (actual_humans truth \ predicted).card

/-- `total = len(truth)` — the dict's size, i.e. the number of keys. -/
def checkerTotal (truth : List (String × Bool)) : Nat :=
  (truthKeys truth).card

/-- `score = tp * 4 + fn * (-1) + fp * (-2)`. -/
def checkerScore (truth : List (String × Bool)) (predicted : Finset String) : Int :=
  (checker_tp truth predicted : Int) * 4 + (checker_fn truth predicted : Int) * (-1) +
    (checker_fp truth predicted : Int) * (-2)

/-- `pct_correct = 100.0 * (tp + tn) / total if total else 0`. -/
def checkerAccuracy (truth : List (String × Bool)) (predicted : Finset String) : ℚ :=
  if checkerTotal truth = 0 then 0
  else 100 * ((checker_tp truth predicted : ℚ) + (checker_tn truth predicted : ℚ)) /
    (checkerTotal truth : ℚ)

/-- `unknown = predicted_bots - set(truth.keys())`. -/
def unknownIds (truth : List (String × Bool)) (predicted : Finset String) : Finset String :=
  predicted \ truthKeys truth

/-- `predicted_bots &= set(truth.keys())` — the known predicted ids that are
actually scored. -/
def knownPredicted (truth : List (String × Bool)) (predicted : Finset String) : Finset String :=
  predicted ∩ truthKeys truth

/-- One `ClassificationPoint` per known user, carrying that user's truth and
the prediction derived from membership in the predicted-bot set. -/
def pointsOfTruth (truth : List (String × Bool)) (predicted : Finset String) :
    List ClassificationPoint :=
  truth.map (fun kv =>
    { user_id := kv.1, dataset_id := 0,
      truth_label := if kv.2 then "BOT" else "HUMAN",
      predicted_label := if kv.1 ∈ predicted then "BOT" else "HUMAN" })

/-! Field projections of `compute_metrics`, shared by the scoring proofs. -/

theorem compute_metrics_total (points : List ClassificationPoint) :
    (compute_metrics points).total = points.length := by
  rw [compute_metrics_eq]; exact metricsTally_total points

theorem compute_metrics_tp (points : List ClassificationPoint) :
    (compute_metrics points).tp = points.countP isTP := by
  rw [compute_metrics_eq]; exact metricsTally_tp points

theorem compute_metrics_tn (points : List ClassificationPoint) :
    (compute_metrics points).tn = points.countP isTN := by
  rw [compute_metrics_eq]; exact metricsTally_tn points

theorem compute_metrics_fp (points : List ClassificationPoint) :
    (compute_metrics points).fp = points.countP isFP := by
  rw [compute_metrics_eq]; exact metricsTally_fp points

theorem compute_metrics_fn (points : List ClassificationPoint) :
    (compute_metrics points).fn = points.countP isFN := by
  rw [compute_metrics_eq]; exact metricsTally_fn points

theorem compute_metrics_accuracy (points : List ClassificationPoint) :
    (compute_metrics points).accuracy = if (compute_metrics points).total = 0 then 0 else
      100 * (((compute_metrics points).tp : ℚ) + ((compute_metrics points).tn : ℚ)) /
        ((compute_metrics points).total : ℚ) := by
  rw [compute_metrics_eq]

theorem compute_metrics_score (points : List ClassificationPoint) :
    (compute_metrics points).score = ((compute_metrics points).tp : Int) * 4 -
      ((compute_metrics points).fp : Int) * 2 - ((compute_metrics points).fn : Int) := by
  rw [compute_metrics_eq]

/-! Bridging a duplicate-free list's `Finset` image with `countP`. -/

theorem toFinset_inter_card {α : Type} [DecidableEq α] (s : Finset α) :
    ∀ l : List α, l.Nodup → (l.toFinset ∩ s).card = l.countP (fun x => decide (x ∈ s)) := by
  intro l
  induction l with
  | nil => intro _; simp
  | cons a l ih =>
    intro hnd
    obtain ⟨ha, hnd'⟩ := List.nodup_cons.mp hnd
    rw [List.toFinset_cons, List.countP_cons]
    by_cases has : a ∈ s
    · rw [Finset.insert_inter_of_mem has,
        Finset.card_insert_of_not_mem (fun hmem => ha (List.mem_toFinset.mp (Finset.mem_inter.mp hmem).1)),
        ih hnd']
      simp [has]
    · rw [Finset.insert_inter_of_not_mem has, ih hnd']
      simp [has]

theorem toFinset_sdiff_card {α : Type} [DecidableEq α] (s : Finset α) :
    ∀ l : List α, l.Nodup → (l.toFinset \ s).card = l.countP (fun x => decide (x ∉ s)) := by
  intro l
  induction l with
  | nil => intro _; simp
  | cons a l ih =>
    intro hnd
    obtain ⟨ha, hnd'⟩ := List.nodup_cons.mp hnd
    rw [List.toFinset_cons, List.countP_cons]
    by_cases has : a ∈ s
    · rw [Finset.insert_sdiff_of_mem _ has, ih hnd']
      simp [has]
    · rw [Finset.insert_sdiff_of_not_mem _ has,
        Finset.card_insert_of_not_mem (fun hmem => ha (List.mem_toFinset.mp (Finset.mem_sdiff.mp hmem).1)),
        ih hnd']
      simp [has]

/-- Two entries of a duplicate-free-keyed association list with the same key
are the same entry. -/
theorem assoc_entry_inj {β : Type} :
    ∀ (truth : List (String × β)), (truth.map Prod.fst).Nodup →
      ∀ {a b : String × β}, a ∈ truth → b ∈ truth → a.1 = b.1 → a = b := by
  intro truth
  induction truth with
  | nil => intro _ a b ha; simp at ha
  | cons kv t ih =>
    intro hnd a b ha hb heq
    rw [List.map_cons] at hnd
    obtain ⟨hk, hnd'⟩ := List.nodup_cons.mp hnd
    rcases List.mem_cons.mp ha with rfl | ha' <;> rcases List.mem_cons.mp hb with rfl | hb'
    · rfl
    · exact absurd (List.mem_map.mpr ⟨b, hb', heq.symm⟩) hk
    · exact absurd (List.mem_map.mpr ⟨a, ha', heq⟩) hk
    · exact ih hnd' ha' hb' heq

/-- With duplicate-free keys, the checker's `actual_humans` is the key set of
the entries mapped to `False`. -/
theorem actual_humans_eq (truth : List (String × Bool))
    (hnd : (truth.map Prod.fst).Nodup) :
    actual_humans truth = ((truth.filter (fun kv => !kv.2)).map Prod.fst).toFinset := by
  ext x
  simp only [actual_humans, truthKeys, actual_bots, Finset.mem_sdiff, List.mem_toFinset,
    List.mem_map, List.mem_filter]
  constructor
  · rintro ⟨⟨kv, hkv, rfl⟩, hnb⟩
    refine ⟨kv, ⟨hkv, ?_⟩, rfl⟩
    cases h2 : kv.2
    · rfl
    · exact absurd ⟨kv, ⟨hkv, h2⟩, rfl⟩ hnb
  · rintro ⟨kv, ⟨hkv, h2⟩, rfl⟩
    refine ⟨⟨kv, hkv, rfl⟩, ?_⟩
    rintro ⟨kv', ⟨hkv', h2'⟩, heq⟩
    have := assoc_entry_inj truth hnd hkv' hkv heq
    rw [this] at h2'
    simp [h2'] at h2

theorem bots_map_nodup (truth : List (String × Bool))
    (hnd : (truth.map Prod.fst).Nodup) :
    ((truth.filter (fun kv => kv.2)).map Prod.fst).Nodup :=
  (List.Sublist.map Prod.fst (List.filter_sublist truth)).nodup hnd

theorem humans_map_nodup (truth : List (String × Bool))
    (hnd : (truth.map Prod.fst).Nodup) :
    ((truth.filter (fun kv => !kv.2)).map Prod.fst).Nodup :=
  (List.Sublist.map Prod.fst (List.filter_sublist truth)).nodup hnd

/-! The four set-based counts, as `countP` over the truth entries. -/

theorem checker_tp_countP (truth : List (String × Bool)) (predicted : Finset String)
    (hnd : (truth.map Prod.fst).Nodup) :
    checker_tp truth predicted =
      truth.countP (fun kv => kv.2 && decide (kv.1 ∈ predicted)) := by
  unfold checker_tp actual_bots
  rw [Finset.inter_comm, toFinset_inter_card predicted _ (bots_map_nodup truth hnd),
    List.countP_map, List.countP_filter]
  refine List.countP_congr (fun kv _ => ?_)
  simp [Function.comp, Bool.and_eq_true, and_comm]

theorem checker_fn_countP (truth : List (String × Bool)) (predicted : Finset String)
    (hnd : (truth.map Prod.fst).Nodup) :
    checker_fn truth predicted =
      truth.countP (fun kv => kv.2 && !decide (kv.1 ∈ predicted)) := by
  unfold checker_fn actual_bots
  rw [toFinset_sdiff_card predicted _ (bots_map_nodup truth hnd),
    List.countP_map, List.countP_filter]
  refine List.countP_congr (fun kv _ => ?_)
  simp [Function.comp, Bool.and_eq_true, and_comm]

theorem checker_fp_countP (truth : List (String × Bool)) (predicted : Finset String)
    (hnd : (truth.map Prod.fst).Nodup) :
    checker_fp truth predicted =
      truth.countP (fun kv => !kv.2 && decide (kv.1 ∈ predicted)) := by
  unfold checker_fp
  rw [actual_humans_eq truth hnd, Finset.inter_comm,
    toFinset_inter_card predicted _ (humans_map_nodup truth hnd),
    List.countP_map, List.countP_filter]
  refine List.countP_congr (fun kv _ => ?_)
  simp [Function.comp, Bool.and_eq_true, and_comm]

theorem checker_tn_countP (truth : List (String × Bool)) (predicted : Finset String)
    (hnd : (truth.map Prod.fst).Nodup) :
    checker_tn truth predicted =
      truth.countP (fun kv => !kv.2 && !decide (kv.1 ∈ predicted)) := by
  unfold checker_tn
  rw [actual_humans_eq truth hnd,
    toFinset_sdiff_card predicted _ (humans_map_nodup truth hnd),
    List.countP_map, List.countP_filter]
  refine List.countP_congr (fun kv _ => ?_)
  simp [Function.comp, Bool.and_eq_true, and_comm]

/-! The metrics-side counts of the points built from the same truth. -/

theorem pointsOfTruth_tp (truth : List (String × Bool)) (predicted : Finset String) :
    (pointsOfTruth truth predicted).countP isTP =
      truth.countP (fun kv => kv.2 && decide (kv.1 ∈ predicted)) := by
  unfold pointsOfTruth
  rw [List.countP_map]
  refine List.countP_congr (fun kv _ => ?_)
  by_cases h2 : kv.2 <;> by_cases hm : kv.1 ∈ predicted <;>
    simp [isTP, Function.comp, h2, hm]

theorem pointsOfTruth_fn (truth : List (String × Bool)) (predicted : Finset String) :
    (pointsOfTruth truth predicted).countP isFN =
      truth.countP (fun kv => kv.2 && !decide (kv.1 ∈ predicted)) := by
  unfold pointsOfTruth
  rw [List.countP_map]
  refine List.countP_congr (fun kv _ => ?_)
  by_cases h2 : kv.2 <;> by_cases hm : kv.1 ∈ predicted <;>
    simp [isFN, Function.comp, h2, hm]

theorem pointsOfTruth_fp (truth : List (String × Bool)) (predicted : Finset String) :
    (pointsOfTruth truth predicted).countP isFP =
      truth.countP (fun kv => !kv.2 && decide (kv.1 ∈ predicted)) := by
  unfold pointsOfTruth
  rw [List.countP_map]
  refine List.countP_congr (fun kv _ => ?_)
  by_cases h2 : kv.2 <;> by_cases hm : kv.1 ∈ predicted <;>
    simp [isFP, Function.comp, h2, hm]

theorem pointsOfTruth_tn (truth : List (String × Bool)) (predicted : Finset String) :
    (pointsOfTruth truth predicted).countP isTN =
      truth.countP (fun kv => !kv.2 && !decide (kv.1 ∈ predicted)) := by
  unfold pointsOfTruth
  rw [List.countP_map]
  refine List.countP_congr (fun kv _ => ?_)
  by_cases h2 : kv.2 <;> by_cases hm : kv.1 ∈ predicted <;>
    simp [isTN, Function.comp, h2, hm]

/-- C4: the run-checker's set-based scoring agrees, count for count and
formula for formula, with `compute_metrics` applied to one point per known
user. -/
theorem checker_refines_compute_metrics (truth : List (String × Bool))
    (predicted : Finset String)
    (hnd : (truth.map Prod.fst).Nodup)
    (hsub : predicted ⊆ truthKeys truth) :
    checker_tp truth predicted = (compute_metrics (pointsOfTruth truth predicted)).tp ∧
    checker_tn truth predicted = (compute_metrics (pointsOfTruth truth predicted)).tn ∧
    checker_fp truth predicted = (compute_metrics (pointsOfTruth truth predicted)).fp ∧
    checker_fn truth predicted = (compute_metrics (pointsOfTruth truth predicted)).fn ∧
    checkerAccuracy truth predicted = (compute_metrics (pointsOfTruth truth predicted)).accuracy ∧
    checkerScore truth predicted = (compute_metrics (pointsOfTruth truth predicted)).score := by
  have htp : checker_tp truth predicted = (compute_metrics (pointsOfTruth truth predicted)).tp := by
    rw [compute_metrics_tp, checker_tp_countP truth predicted hnd, pointsOfTruth_tp]
  have htn : checker_tn truth predicted = (compute_metrics (pointsOfTruth truth predicted)).tn := by
    rw [compute_metrics_tn, checker_tn_countP truth predicted hnd, pointsOfTruth_tn]
  have hfp : checker_fp truth predicted = (compute_metrics (pointsOfTruth truth predicted)).fp := by
    rw [compute_metrics_fp, checker_fp_countP truth predicted hnd, pointsOfTruth_fp]
  have hfn : checker_fn truth predicted = (compute_metrics (pointsOfTruth truth predicted)).fn := by
    rw [compute_metrics_fn, checker_fn_countP truth predicted hnd, pointsOfTruth_fn]
  have htotal : checkerTotal truth = (compute_metrics (pointsOfTruth truth predicted)).total := by
    rw [compute_metrics_total]
    unfold checkerTotal truthKeys pointsOfTruth
    rw [List.toFinset_card_of_nodup hnd, List.length_map, List.length_map]
  refine ⟨htp, htn, hfp, hfn, ?_, ?_⟩
  · rw [checkerAccuracy, compute_metrics_accuracy, htotal, htp, htn]
  · rw [checkerScore, compute_metrics_score, htp, hfp, hfn]; ring

/-- The concrete truth dict `{a: HUMAN, b: BOT}` of the spec's run-checker
example. -/
def truthEx : List (String × Bool) := [("a", false), ("b", true)]

/-- Witness for C4 at `truth = {a: HUMAN, b: BOT}`, `predicted = {b}`. -/
theorem checker_refines_compute_metrics_witness :
    checker_tp truthEx {"b"} = (compute_metrics (pointsOfTruth truthEx {"b"})).tp ∧
    checker_tn truthEx {"b"} = (compute_metrics (pointsOfTruth truthEx {"b"})).tn ∧
    checker_fp truthEx {"b"} = (compute_metrics (pointsOfTruth truthEx {"b"})).fp ∧
    checker_fn truthEx {"b"} = (compute_metrics (pointsOfTruth truthEx {"b"})).fn ∧
    checkerAccuracy truthEx {"b"} = (compute_metrics (pointsOfTruth truthEx {"b"})).accuracy ∧
    checkerScore truthEx {"b"} = (compute_metrics (pointsOfTruth truthEx {"b"})).score :=
  checker_refines_compute_metrics truthEx {"b"} (by decide) (by decide)

/-- C5: unknown predicted ids (absent from the truth's key space) are
counted (`unknownIds`) and excluded from scoring: all four confusion counts
computed from `predicted ∩ keys` equal those computed from `predicted`
itself — so they cannot distort the matrix — and on the spec's concrete
example (`truth = {a: HUMAN, b: BOT}`, `predicted = {b, c}`) the result is
tp = 1, fp = 0, fn = 0, tn = 1 with unknown count 1. -/
theorem unknown_ids_excluded :
    (∀ (truth : List (String × Bool)) (predicted : Finset String),
      checker_tp truth (knownPredicted truth predicted) = checker_tp truth predicted ∧
      checker_fp truth (knownPredicted truth predicted) = checker_fp truth predicted ∧
      checker_fn truth (knownPredicted truth predicted) = checker_fn truth predicted ∧
      checker_tn truth (knownPredicted truth predicted) = checker_tn truth predicted) ∧
    (unknownIds truthEx {"b", "c"}).card = 1 ∧
    checker_tp truthEx (knownPredicted truthEx {"b", "c"}) = 1 ∧
    checker_fp truthEx (knownPredicted truthEx {"b", "c"}) = 0 ∧
    checker_fn truthEx (knownPredicted truthEx {"b", "c"}) = 0 ∧
    checker_tn truthEx (knownPredicted truthEx {"b", "c"}) = 1 := by
  refine ⟨?_, by decide, by decide, by decide, by decide, by decide⟩
  intro truth predicted
  have hbots : actual_bots truth ⊆ truthKeys truth := by
    intro x hx
    rcases List.mem_map.mp (List.mem_toFinset.mp hx) with ⟨kv, hkv, rfl⟩
    exact List.mem_toFinset.mpr (List.mem_map.mpr ⟨kv, (List.mem_filter.mp hkv).1, rfl⟩)
  have hhumans : actual_humans truth ⊆ truthKeys truth := Finset.sdiff_subset
  have hinter : ∀ s : Finset String, s ⊆ truthKeys truth →
      knownPredicted truth predicted ∩ s = predicted ∩ s := by
    intro s hs
    ext x
    simp only [knownPredicted, Finset.mem_inter]
    constructor
    · rintro ⟨⟨hp, -⟩, hx⟩; exact ⟨hp, hx⟩
    · rintro ⟨hp, hx⟩; exact ⟨⟨hp, hs hx⟩, hx⟩
  have hsdiff : ∀ s : Finset String, s ⊆ truthKeys truth →
      s \ knownPredicted truth predicted = s \ predicted := by
    intro s hs
    ext x
    simp only [knownPredicted, Finset.mem_sdiff, Finset.mem_inter]
    constructor
    · rintro ⟨hx, hn⟩
      exact ⟨hx, fun hp => hn ⟨hp, hs hx⟩⟩
    · rintro ⟨hx, hn⟩
      exact ⟨hx, fun hp => hn hp.1⟩
  refine ⟨?_, ?_, ?_, ?_⟩
  · unfold checker_tp; rw [hinter _ hbots]
  · unfold checker_fp; rw [hinter _ hhumans]
  · unfold checker_fn; rw [hsdiff _ hbots]
  · unfold checker_tn; rw [hsdiff _ hhumans]

/-! ## data.py: loading examples

The raw JSON dataset file and the bot-id line file are modelled by their
decoded contents; `load_examples` receives the resolved `(dataset_id, data)`
pairs (the claims about it presuppose that all requested files exist). -/

/-- A user object of the dataset JSON (`id` plus the optional profile
fields read by `build_user_prompt` and `format_user`). -/
structure RawUser where
  id : String
  username : Option String := none
  name : Option String := none
  description : Option String := none
  location : Option String := none
  tweet_count : Option String := none
  z_score : Option String := none
deriving DecidableEq, Repr

/-- A post object of the dataset JSON. -/
structure RawPost where
  id : String
  author_id : String
  created_at : String
  lang : String
  text : String
deriving DecidableEq, Repr

/-- One dataset: the JSON document plus the raw lines of the bot-id file. -/
structure RawDataset where
  lang : String
  users : List RawUser
  posts : List RawPost
  bot_lines : List String
deriving DecidableEq, Repr

/-- Python `str.strip()`. -/
def trimStr (s : String) : String := String.mk (trimChars s.data)

/-- `_load_bot_ids`: the set of stripped non-empty lines (kept as a list,
used only through membership). -/
def _load_bot_ids (lines : List String) : List String :=
  (lines.map trimStr).filter (fun s => !decide (s = ""))

/-- `user.get(field, "?")` rendering. -/
def renderField (o : Option String) : String := o.getD "?"

/-- `user.get(field) or "(none)"` rendering (`None` and `""` both fall back). -/
def renderOrNone (o : Option String) : String :=
  match o with
  | some s => if s = "" then "(none)" else s
  | none => "(none)"

/-- `build_user_prompt` from `data.py`. -/
def build_user_prompt (user : RawUser) (posts : List RawPost) : String :=
  let profile := [
    "User ID: " ++ user.id,
    "Username: " ++ renderField user.username,
    "Name: " ++ renderField user.name,
    "Description: " ++ renderOrNone user.description,
    "Location: " ++ renderOrNone user.location,
    "Tweet count: " ++ renderField user.tweet_count,
    "Z-score (posting activity deviation from average): " ++ renderField user.z_score]
  let post_lines := posts.map (fun p =>
    "[" ++ p.created_at ++ "] [id:" ++ p.id ++ "] [lang:" ++ p.lang ++ "] " ++ p.text)
  let post_lines := if post_lines.isEmpty then ["(no posts)"] else post_lines
  String.intercalate "\n" profile ++ "\n\nPosts:\n" ++ String.intercalate "\n" post_lines

/-- Per-author chronological post order (`posts.sort(key=... created_at)`,
a stable sort on the lexicographic timestamp string). -/
def createdLe (a b : RawPost) : Prop := a.created_at ≤ b.created_at

instance : DecidableRel createdLe := fun a b =>
  inferInstanceAs (Decidable (a.created_at ≤ b.created_at))

/-- `posts_by_author[user_id]`, sorted by `created_at`. -/
def userPosts (posts : List RawPost) (uid : String) : List RawPost :=
  (posts.filter (fun p => decide (p.author_id = uid))).insertionSort createdLe

/-- The `UserExample` built for one user of one dataset. -/
def mkExample (dataset_id : Int) (d : RawDataset) (u : RawUser) : UserExample :=
  let posts := userPosts d.posts u.id
  { user_id := u.id
    dataset_id := dataset_id
    lang := d.lang
    label := if u.id ∈ _load_bot_ids d.bot_lines then "BOT" else "HUMAN"
    full_post_count := posts.length
    post_count_used := posts.length
    user_prompt := build_user_prompt u posts }

/-- The inner user loop of `load_examples`, threading the `seen_user_ids`
set and raising `ValueError` on a duplicate. -/
def processUsers (dataset_id : Int) (d : RawDataset) :
    List RawUser → List String → Except String (List UserExample × List String)
  | [], seen => .ok ([], seen)
  | u :: us, seen =>
    if u.id ∈ seen then .error ("Duplicate user id across datasets: " ++ u.id)
    else
      match processUsers dataset_id d us (u.id :: seen) with
      | .error e => .error e
      | .ok (exs, seen') => .ok (mkExample dataset_id d u :: exs, seen')

/-- The outer dataset loop of `load_examples`. -/
def processDatasets : List (Int × RawDataset) → List String → Except String (List UserExample)
  | [], _ => .ok []
  | (did, d) :: rest, seen =>
    match processUsers did d d.users seen with
    | .error e => .error e
    | .ok (exs, seen') =>
      match processDatasets rest seen' with
      | .error e => .error e
      | .ok exs2 => .ok (exs ++ exs2)

/-- `load_examples` from `data.py` (on resolved dataset contents): loads all
datasets, enforcing global `user_id` uniqueness, then sorts by `user_id`. -/
def load_examples (datasets : List (Int × RawDataset)) : Except String (List UserExample) :=
  match processDatasets datasets [] with
  | .error e => .error e
  | .ok exs => .ok (exs.insertionSort idLe)

/-- All user ids of the requested datasets, in file order. -/
def allUserIds (datasets : List (Int × RawDataset)) : List String :=
  datasets.flatMap (fun p => p.2.users.map RawUser.id)

theorem processUsers_ok (dataset_id : Int) (d : RawDataset) :
    ∀ (us : List RawUser) (seen : List String) (exs : List UserExample) (seen' : List String),
      processUsers dataset_id d us seen = .ok (exs, seen') →
      exs.map UserExample.user_id = us.map RawUser.id ∧
      seen' = (us.map RawUser.id).reverse ++ seen ∧
      (us.map RawUser.id).Nodup ∧
      ∀ i ∈ us.map RawUser.id, i ∉ seen := by
  intro us
  induction us with
  | nil =>
    intro seen exs seen' h
    obtain ⟨h1, h2⟩ : exs = [] ∧ seen = seen' := by
      simpa [processUsers] using h
    simp [h1, ← h2]
  | cons u us ih =>
    intro seen exs seen' h
    rw [processUsers] at h
    split at h
    · exact absurd h (by simp)
    · rename_i hseen
      split at h
      · exact absurd h (by simp)
      · rename_i exs0 seen0 hrec
        obtain ⟨hexs, hseen'⟩ : mkExample dataset_id d u :: exs0 = exs ∧ seen0 = seen' := by
          simpa using h
        obtain ⟨hmap, hs0, hnd, hfresh⟩ := ih (u.id :: seen) exs0 seen0 hrec
        subst hexs hseen'
        refine ⟨?_, ?_, ?_, ?_⟩
        · simp [← hmap, mkExample]
        · rw [hs0]; simp
        · rw [List.map_cons, List.nodup_cons]
          exact ⟨fun hmem => (hfresh _ hmem) (by simp), hnd⟩
        · intro i hi
          rw [List.map_cons] at hi
          rcases List.mem_cons.mp hi with rfl | hi'
          · exact hseen
          · intro hins
            exact (hfresh i hi') (List.mem_cons.mpr (Or.inr hins))

theorem processUsers_complete (dataset_id : Int) (d : RawDataset) :
    ∀ (us : List RawUser) (seen : List String),
      (us.map RawUser.id).Nodup → (∀ i ∈ us.map RawUser.id, i ∉ seen) →
      ∃ exs seen', processUsers dataset_id d us seen = .ok (exs, seen') := by
  intro us
  induction us with
  | nil => intro seen _ _; exact ⟨[], seen, rfl⟩
  | cons u us ih =>
    intro seen hnd hfresh
    rw [List.map_cons, List.nodup_cons] at hnd
    have hu : u.id ∉ seen := hfresh u.id (by simp)
    have hfresh' : ∀ i ∈ us.map RawUser.id, i ∉ u.id :: seen := by
      intro i hi
      rw [List.mem_cons]
      rintro (rfl | hmem)
      · exact hnd.1 hi
      · exact hfresh i (by simp [hi]) hmem
    obtain ⟨exs0, seen0, hrec⟩ := ih (u.id :: seen) hnd.2 hfresh'
    refine ⟨mkExample dataset_id d u :: exs0, seen0, ?_⟩
    rw [processUsers, if_neg hu, hrec]

theorem processDatasets_ok :
    ∀ (datasets : List (Int × RawDataset)) (seen : List String) (exs : List UserExample),
      processDatasets datasets seen = .ok exs →
      exs.map UserExample.user_id = allUserIds datasets ∧
      (allUserIds datasets).Nodup ∧
      ∀ i ∈ allUserIds datasets, i ∉ seen := by
  intro datasets
  induction datasets with
  | nil =>
    intro seen exs h
    have h1 : exs = [] := by simpa [processDatasets] using h
    simp [h1, allUserIds]
  | cons p rest ih =>
    intro seen exs h
    obtain ⟨did, d⟩ := p
    rw [processDatasets] at h
    split at h
    · exact absurd h (by simp)
    · rename_i exs0 seen0 husers
      split at h
      · exact absurd h (by simp)
      · rename_i exs2 hrest
        have hexs : exs0 ++ exs2 = exs := by simpa using h
        obtain ⟨hmap0, hs0, hnd0, hfresh0⟩ := processUsers_ok did d d.users seen exs0 seen0 husers
        obtain ⟨hmap2, hnd2, hfresh2⟩ := ih seen0 exs2 hrest
        have hfresh2' : ∀ i ∈ allUserIds rest, i ∉ d.users.map RawUser.id ∧ i ∉ seen := by
          intro i hi
          have := hfresh2 i hi
          rw [hs0] at this
          simp only [List.mem_append, List.mem_reverse] at this
          exact ⟨fun hm => this (Or.inl hm), fun hm => this (Or.inr hm)⟩
        subst hexs
        refine ⟨?_, ?_, ?_⟩
        · rw [List.map_append, hmap0, hmap2]
          simp [allUserIds]
        · show ((did, d) :: rest).flatMap (fun p => p.2.users.map RawUser.id) |>.Nodup
          rw [List.flatMap_cons, List.nodup_append]
          exact ⟨hnd0, hnd2, fun i hi hi2 => (hfresh2' i hi2).1 hi⟩
        · intro i hi
          rw [allUserIds, List.flatMap_cons] at hi
          rcases List.mem_append.mp hi with hi0 | hi2
          · exact hfresh0 i hi0
          · exact (hfresh2' i hi2).2

theorem processDatasets_complete :
    ∀ (datasets : List (Int × RawDataset)) (seen : List String),
      (allUserIds datasets).Nodup → (∀ i ∈ allUserIds datasets, i ∉ seen) →
      ∃ exs, processDatasets datasets seen = .ok exs := by
  intro datasets
  induction datasets with
  | nil => intro seen _ _; exact ⟨[], rfl⟩
  | cons p rest ih =>
    intro seen hnd hfresh
    obtain ⟨did, d⟩ := p
    have hnd' : (d.users.map RawUser.id ++ allUserIds rest).Nodup := by
      simpa [allUserIds] using hnd
    rw [List.nodup_append] at hnd'
    have hfresh' : ∀ i ∈ d.users.map RawUser.id ++ allUserIds rest, i ∉ seen := by
      intro i hi
      refine hfresh i ?_
      rw [allUserIds, List.flatMap_cons]
      exact hi
    obtain ⟨exs0, seen0, husers⟩ := processUsers_complete did d d.users seen hnd'.1
      (fun i hi => hfresh' i (List.mem_append.mpr (Or.inl hi)))
    obtain ⟨hmap0, hs0, -, -⟩ := processUsers_ok did d d.users seen exs0 seen0 husers
    have hfresh2 : ∀ i ∈ allUserIds rest, i ∉ seen0 := by
      intro i hi
      rw [hs0]
      simp only [List.mem_append, List.mem_reverse]
      rintro (hm | hm)
      · exact hnd'.2.2 hm hi
      · exact hfresh' i (List.mem_append.mpr (Or.inr hi)) hm
    obtain ⟨exs2, hrest⟩ := ih seen0 hnd'.2.1 hfresh2
    refine ⟨exs0 ++ exs2, ?_⟩
    rw [processDatasets]
    simp [husers, hrest]

/-- C7: with all source files present, `load_examples` succeeds exactly when
no user id occurs twice across (or within) the requested datasets — a
duplicate yields an error and no examples — and on success the output's
user ids are globally unique. -/
theorem load_examples_unique (datasets : List (Int × RawDataset)) :
    ((∃ exs, load_examples datasets = .ok exs) ↔ (allUserIds datasets).Nodup) ∧
    (∀ exs, load_examples datasets = .ok exs → (exs.map UserExample.user_id).Nodup) := by
  constructor
  · constructor
    · rintro ⟨exs, hok⟩
      unfold load_examples at hok
      split at hok
      · exact absurd hok (by simp)
      · rename_i exs0 h0
        exact (processDatasets_ok datasets [] exs0 h0).2.1
    · intro hnd
      obtain ⟨exs0, h0⟩ := processDatasets_complete datasets [] hnd (by simp)
      exact ⟨exs0.insertionSort idLe, by rw [load_examples, h0]⟩
  · intro exs hok
    unfold load_examples at hok
    split at hok
    · exact absurd hok (by simp)
    · rename_i exs0 h0
      have hexs : exs0.insertionSort idLe = exs := by simpa using hok
      obtain ⟨hmap, hnd, -⟩ := processDatasets_ok datasets [] exs0 h0
      have hperm : (exs.map UserExample.user_id).Perm (exs0.map UserExample.user_id) :=
        (hexs ▸ (List.perm_insertionSort idLe exs0)).map UserExample.user_id
      exact hperm.symm.nodup (hmap ▸ hnd)

/-! ## main.py: building the ground truth (`load_users_and_bots`)

Python dicts are modelled as association lists with in-place overwrite
(`dictSet`); the filesystem is modelled by `Option`-valued maps from dataset
id to the decoded JSON (`users` array) and bot-file lines.  Printing a
warning is modelled by accumulating the message. -/

/-- The part of the dataset JSON `main.py` reads: the `users` array. -/
structure MainDatasetJson where
  users : List RawUser
deriving DecidableEq, Repr

/-- Python dict update `d[k] = v`: overwrite in place, or append a new key. -/
def dictSet {β : Type} : List (String × β) → String → β → List (String × β)
  | [], k, v => [(k, v)]
  | (k', v') :: t, k, v => if k' = k then (k, v) :: t else (k', v') :: dictSet t k v

/-- Python dict lookup `d.get(k)`. -/
def dictLookup {β : Type} : List (String × β) → String → Option β
  | [], _ => none
  | (k', v') :: t, k => if k' = k then some v' else dictLookup t k

/-- The state threaded through `load_users_and_bots`: the `truth` and
`users` dicts plus the warnings printed so far. -/
structure CheckState where
  truth : List (String × Bool)
  users : List (String × RawUser)
  warnings : List String
deriving Repr

def warnMissingData (n : Int) : String :=
  s!"Warning: dataset.posts&users.{n}.json not found, skipping dataset {n}"

def warnMissingBots (n : Int) : String :=
  s!"Warning: dataset.bots.{n}.txt not found, skipping bot labels for dataset {n}"

/-- One line of the bot file: `uid = line.strip(); if uid and uid in truth:
truth[uid] = True`. -/
def applyBotLine (t : List (String × Bool)) (line : String) : List (String × Bool) :=
  let uid := trimStr line
  if uid ≠ "" ∧ (dictLookup t uid).isSome then dictSet t uid true else t

/-- The bot-file loop. -/
def applyBots (t : List (String × Bool)) (lines : List String) : List (String × Bool) :=
  lines.foldl applyBotLine t

/-- The user loop: `truth[uid] = False` for every user of the dataset. -/
def registerUsers (t : List (String × Bool)) (us : List RawUser) : List (String × Bool) :=
  us.foldl (fun t u => dictSet t u.id false) t

/-- The metadata side: `users[uid] = u`. -/
def registerUserMeta (m : List (String × RawUser)) (us : List RawUser) :
    List (String × RawUser) :=
  us.foldl (fun m u => dictSet m u.id u) m

/-- One iteration of the dataset loop of `load_users_and_bots`: a missing
JSON file warns and skips the dataset; a missing bot file warns and skips
only the labels. -/
def loadDataset (fsData : Int → Option MainDatasetJson) (fsBots : Int → Option (List String))
    (st : CheckState) (n : Int) : CheckState :=
  match fsData n with
  | none => { st with warnings := st.warnings ++ [warnMissingData n] }
  | some d =>
    let truth := registerUsers st.truth d.users
    let users := registerUserMeta st.users d.users
    match fsBots n with
    | none => { truth := truth, users := users, warnings := st.warnings ++ [warnMissingBots n] }
    | some lines => { truth := applyBots truth lines, users := users, warnings := st.warnings }

/-- `load_users_and_bots` from `main.py`. -/
def load_users_and_bots (fsData : Int → Option MainDatasetJson)
    (fsBots : Int → Option (List String)) (dataset_ids : List Int) : CheckState :=
  dataset_ids.foldl (loadDataset fsData fsBots) ⟨[], [], []⟩

/-! C8: missing dataset files produce a warning and contribute nothing. -/

theorem loadDataset_missing (fsData : Int → Option MainDatasetJson)
    (fsBots : Int → Option (List String)) (st : CheckState) (n : Int)
    (h : fsData n = none) :
    loadDataset fsData fsBots st n =
      { st with warnings := st.warnings ++ [warnMissingData n] } := by
  unfold loadDataset
  rw [h]

theorem loadDataset_truth_users (fsData : Int → Option MainDatasetJson)
    (fsBots : Int → Option (List String)) (st st' : CheckState) (n : Int)
    (ht : st.truth = st'.truth) (hu : st.users = st'.users) :
    (loadDataset fsData fsBots st n).truth = (loadDataset fsData fsBots st' n).truth ∧
    (loadDataset fsData fsBots st n).users = (loadDataset fsData fsBots st' n).users := by
  unfold loadDataset
  cases fsData n with
  | none => exact ⟨ht, hu⟩
  | some d =>
    cases fsBots n with
    | none => exact ⟨by rw [ht], by rw [hu]⟩
    | some lines => exact ⟨by rw [ht], by rw [hu]⟩

/-- Truth and users of the fold agree between two starting states that agree
on truth and users (warnings are irrelevant to them). -/
theorem fold_truth_users_congr (fsData : Int → Option MainDatasetJson)
    (fsBots : Int → Option (List String)) :
    ∀ (ids : List Int) (st st' : CheckState),
      st.truth = st'.truth → st.users = st'.users →
      (ids.foldl (loadDataset fsData fsBots) st).truth =
        (ids.foldl (loadDataset fsData fsBots) st').truth ∧
      (ids.foldl (loadDataset fsData fsBots) st).users =
        (ids.foldl (loadDataset fsData fsBots) st').users := by
  intro ids
  induction ids with
  | nil => intro st st' ht hu; exact ⟨ht, hu⟩
  | cons n ids ih =>
    intro st st' ht hu
    obtain ⟨ht', hu'⟩ := loadDataset_truth_users fsData fsBots st st' n ht hu
    exact ih _ _ ht' hu'

/-- Each loop iteration only ever appends to the warnings. -/
theorem fold_warnings_mono (fsData : Int → Option MainDatasetJson)
    (fsBots : Int → Option (List String)) :
    ∀ (ids : List Int) (st : CheckState) (w : String), w ∈ st.warnings →
      w ∈ (ids.foldl (loadDataset fsData fsBots) st).warnings := by
  intro ids
  induction ids with
  | nil => intro st w hw; exact hw
  | cons n ids ih =>
    intro st w hw
    refine ih _ w ?_
    unfold loadDataset
    cases fsData n with
    | none => simp [hw]
    | some d => cases fsBots n with
      | none => simp [hw]
      | some lines => simpa using hw

theorem fold_missing_warning (fsData : Int → Option MainDatasetJson)
    (fsBots : Int → Option (List String)) :
    ∀ (ids : List Int) (st : CheckState) (n : Int), n ∈ ids → fsData n = none →
      warnMissingData n ∈ (ids.foldl (loadDataset fsData fsBots) st).warnings := by
  intro ids
  induction ids with
  | nil => intro st n hn; simp at hn
  | cons m ids ih =>
    intro st n hn hmiss
    rcases List.mem_cons.mp hn with rfl | hn'
    · refine fold_warnings_mono fsData fsBots ids _ _ ?_
      rw [loadDataset_missing fsData fsBots st n hmiss]
      simp
    · exact ih _ n hn' hmiss

/-- Skipped iterations leave truth and users untouched. -/
theorem fold_skip_missing (fsData : Int → Option MainDatasetJson)
    (fsBots : Int → Option (List String)) :
    ∀ (ids : List Int) (st : CheckState),
      (ids.foldl (loadDataset fsData fsBots) st).truth =
        ((ids.filter (fun n => (fsData n).isSome)).foldl (loadDataset fsData fsBots) st).truth ∧
      (ids.foldl (loadDataset fsData fsBots) st).users =
        ((ids.filter (fun n => (fsData n).isSome)).foldl (loadDataset fsData fsBots) st).users := by
  intro ids
  induction ids with
  | nil => intro st; exact ⟨rfl, rfl⟩
  | cons n ids ih =>
    intro st
    rw [List.foldl_cons, List.filter_cons]
    cases hmiss : fsData n with
    | none =>
      simp only [Option.isSome_none, Bool.false_eq_true, if_false]
      rw [loadDataset_missing fsData fsBots st n hmiss]
      obtain ⟨ht, hu⟩ := ih ({ st with warnings := st.warnings ++ [warnMissingData n] })
      obtain ⟨ht', hu'⟩ := fold_truth_users_congr fsData fsBots
        (ids.filter (fun n => (fsData n).isSome))
        ({ st with warnings := st.warnings ++ [warnMissingData n] }) st rfl rfl
      exact ⟨ht.trans ht', hu.trans hu'⟩
    | some d =>
      simp only [Option.isSome_some, if_true]
      rw [List.foldl_cons]
      exact ih (loadDataset fsData fsBots st n)

/-- C8: a requested dataset id whose JSON file is missing produces a warning
and is skipped — it contributes nothing to `truth` or `users` (the result
equals that of the run restricted to the present datasets) — and the loader
never aborts (it is a total function returning the remaining datasets'
state). -/
theorem missing_dataset_soft_skip (fsData : Int → Option MainDatasetJson)
    (fsBots : Int → Option (List String)) (ids : List Int) :
    (load_users_and_bots fsData fsBots ids).truth =
      (load_users_and_bots fsData fsBots (ids.filter (fun n => (fsData n).isSome))).truth ∧
    (load_users_and_bots fsData fsBots ids).users =
      (load_users_and_bots fsData fsBots (ids.filter (fun n => (fsData n).isSome))).users ∧
    (∀ n ∈ ids, fsData n = none →
      warnMissingData n ∈ (load_users_and_bots fsData fsBots ids).warnings) := by
  obtain ⟨ht, hu⟩ := fold_skip_missing fsData fsBots ids ⟨[], [], []⟩
  exact ⟨ht, hu, fun n hn hmiss => fold_missing_warning fsData fsBots ids _ n hn hmiss⟩

/-! C10: dict overwrite semantics of the ground-truth builder. -/

theorem dictLookup_dictSet {β : Type} (k k' : String) (v : β) :
    ∀ t : List (String × β),
      dictLookup (dictSet t k v) k' = if k = k' then some v else dictLookup t k' := by
  intro t
  induction t with
  | nil => simp [dictSet, dictLookup]
  | cons kv t ih =>
    obtain ⟨a, b⟩ := kv
    rw [dictSet]
    by_cases hak : a = k
    · subst hak
      rw [if_pos rfl, dictLookup, dictLookup]
      by_cases hk' : a = k'
      · simp [hk']
      · simp [hk']
    · rw [if_neg hak, dictLookup, dictLookup]
      by_cases hk' : a = k'
      · have : ¬ k = k' := fun h => hak (h ▸ hk')
        simp [hk', this]
      · simp [hk', ih]

theorem dictLookup_isSome_dictSet {β : Type} (t : List (String × β)) (k uid : String) (v : β)
    (h : (dictLookup t uid).isSome) : (dictLookup (dictSet t k v) uid).isSome := by
  rw [dictLookup_dictSet]
  by_cases hk : k = uid <;> simp [hk, h]

theorem registerUsers_lookup (us : List RawUser) :
    ∀ (t : List (String × Bool)) (uid : String),
      dictLookup (registerUsers t us) uid =
        if uid ∈ us.map RawUser.id then some false else dictLookup t uid := by
  induction us with
  | nil => intro t uid; simp [registerUsers]
  | cons u us ih =>
    intro t uid
    show dictLookup (registerUsers (dictSet t u.id false) us) uid = _
    rw [ih (dictSet t u.id false) uid, dictLookup_dictSet]
    by_cases hmem : uid ∈ us.map RawUser.id
    · simp [hmem]
    · by_cases hid : u.id = uid
      · simp [hmem, hid]
      · have h1 : uid ∉ (u :: us).map RawUser.id := by
          rw [List.map_cons, List.mem_cons]
          rintro (h | h)
          · exact hid h.symm
          · exact hmem h
        rw [if_neg hmem, if_neg hid, if_neg h1]

theorem registerUsers_isSome (us : List RawUser) (t : List (String × Bool)) (uid : String)
    (h : uid ∈ us.map RawUser.id) : (dictLookup (registerUsers t us) uid).isSome := by
  rw [registerUsers_lookup us t uid, if_pos h]
  rfl

theorem applyBots_lookup (lines : List String) :
    ∀ (t : List (String × Bool)) (uid : String), (dictLookup t uid).isSome →
      dictLookup (applyBots t lines) uid =
        if uid ∈ _load_bot_ids lines then some true else dictLookup t uid := by
  induction lines with
  | nil => intro t uid _; simp [applyBots, _load_bot_ids]
  | cons line lines ih =>
    intro t uid hsome
    show dictLookup (applyBots (applyBotLine t line) lines) uid = _
    have hlist : _load_bot_ids (line :: lines) =
        if trimStr line = "" then _load_bot_ids lines
        else trimStr line :: _load_bot_ids lines := by
      unfold _load_bot_ids
      rw [List.map_cons, List.filter_cons]
      by_cases he : trimStr line = "" <;> simp [he]
    by_cases he : trimStr line = ""
    · have hstep : applyBotLine t line = t := by
        unfold applyBotLine
        rw [if_neg (by simp [he])]
      rw [hstep, ih t uid hsome, hlist, if_pos he]
    · by_cases hv : (dictLookup t (trimStr line)).isSome
      · have hstep : applyBotLine t line = dictSet t (trimStr line) true := by
          unfold applyBotLine
          rw [if_pos ⟨he, hv⟩]
        rw [hstep, ih _ uid (dictLookup_isSome_dictSet t _ uid true hsome),
          dictLookup_dictSet, hlist, if_neg he]
        by_cases hmem : uid ∈ _load_bot_ids lines
        · simp [hmem]
        · by_cases huid : trimStr line = uid
          · simp [hmem, huid]
          · have h1 : uid ∉ trimStr line :: _load_bot_ids lines := by
              rw [List.mem_cons]
              rintro (h | h)
              · exact huid h.symm
              · exact hmem h
            rw [if_neg hmem, if_neg huid, if_neg h1]
      · have hstep : applyBotLine t line = t := by
          unfold applyBotLine
          rw [if_neg (by simp [hv])]
        rw [hstep, ih t uid hsome, hlist, if_neg he]
        have huid : ¬ trimStr line = uid := fun h => hv (h ▸ hsome)
        by_cases hmem : uid ∈ _load_bot_ids lines
        · simp [hmem]
        · have h1 : uid ∉ trimStr line :: _load_bot_ids lines := by
            rw [List.mem_cons]
            rintro (h | h)
            · exact huid h.symm
            · exact hmem h
          rw [if_neg hmem, if_neg h1]

/-- C10: the run-checker does not enforce id uniqueness — when the same user
id occurs in the user lists of two loaded datasets, processing the later
dataset resets that id's truth to `False` (HUMAN); a bot label earned from
the earlier dataset's bot file is lost unless the id is also in the later
dataset's bot file (or that bot file is absent only skips relabeling,
leaving the reset `False`). -/
theorem duplicate_id_truth_overwritten
    (fsData : Int → Option MainDatasetJson) (fsBots : Int → Option (List String))
    (n1 n2 : Int) (d1 d2 : MainDatasetJson) (lines1 : List String) (uid : String)
    (h1 : fsData n1 = some d1) (h2 : fsData n2 = some d2)
    (hb1 : fsBots n1 = some lines1)
    (hu1 : uid ∈ d1.users.map RawUser.id)
    (hbot1 : uid ∈ _load_bot_ids lines1)
    (hu2 : uid ∈ d2.users.map RawUser.id) :
    dictLookup (load_users_and_bots fsData fsBots [n1]).truth uid = some true ∧
    dictLookup (load_users_and_bots fsData fsBots [n1, n2]).truth uid =
      some (match fsBots n2 with
        | none => false
        | some lines2 => decide (uid ∈ _load_bot_ids lines2)) := by
  have hst1 : (loadDataset fsData fsBots ⟨[], [], []⟩ n1).truth =
      applyBots (registerUsers [] d1.users) lines1 := by
    unfold loadDataset
    rw [h1, hb1]
  have hlook1 : dictLookup (applyBots (registerUsers [] d1.users) lines1) uid = some true := by
    rw [applyBots_lookup lines1 _ uid (registerUsers_isSome d1.users [] uid hu1),
      if_pos hbot1]
  constructor
  · show dictLookup (loadDataset fsData fsBots ⟨[], [], []⟩ n1).truth uid = some true
    rw [hst1, hlook1]
  · show dictLookup (loadDataset fsData fsBots (loadDataset fsData fsBots ⟨[], [], []⟩ n1) n2).truth uid = _
    set st1 := loadDataset fsData fsBots ⟨[], [], []⟩ n1 with hdef
    have hreg : dictLookup (registerUsers st1.truth d2.users) uid = some false := by
      rw [registerUsers_lookup d2.users st1.truth uid, if_pos hu2]
    unfold loadDataset
    rw [h2]
    cases hB2 : fsBots n2 with
    | none => simpa using hreg
    | some lines2 =>
      show dictLookup (applyBots (registerUsers st1.truth d2.users) lines2) uid = _
      rw [applyBots_lookup lines2 _ uid (by rw [hreg]; rfl)]
      by_cases hmem : uid ∈ _load_bot_ids lines2 <;> simp [hmem, hreg]

/-- Concrete data for the C10 witness: the same user id `"u"` in two
datasets; dataset 1's bot file flags it, dataset 2 has no bot file. -/
def dupUserJson : MainDatasetJson := ⟨[{ id := "u" }]⟩

def fsDataEx : Int → Option MainDatasetJson :=
  fun n => if n = 1 then some dupUserJson else if n = 2 then some dupUserJson else none

def fsBotsEx : Int → Option (List String) :=
  fun n => if n = 1 then some ["u"] else none

/-- Witness for C10: after loading `[1, 2]`, the bot label `"u"` earned from
dataset 1 has been reset to HUMAN by dataset 2. -/
theorem duplicate_id_truth_overwritten_witness :
    dictLookup (load_users_and_bots fsDataEx fsBotsEx [1]).truth "u" = some true ∧
    dictLookup (load_users_and_bots fsDataEx fsBotsEx [1, 2]).truth "u" =
      some (match fsBotsEx 2 with
        | none => false
        | some lines2 => decide ("u" ∈ _load_bot_ids lines2)) :=
  duplicate_id_truth_overwritten fsDataEx fsBotsEx 1 2 dupUserJson dupUserJson ["u"] "u"
    rfl rfl rfl (by decide) (by decide) (by decide)

end BotOrNot
